import Mathlib

/-!
Shallow embedding of the phase synchronization and consensus-scoring engine
(`src/server/phase-lock.ts`, the TriNode pipeline orchestrator and its two
router call sites).  Numbers in the TypeScript source are IEEE doubles; the
algorithms are modelled over exact rationals (and over the reals for the
trigonometric circular mean), which matches the idealized arithmetic the
design document reasons with.
-/

namespace PhaseLock

/-- JavaScript `Math.trunc`-style rounding toward zero, used to model the
JS `%` remainder operator (which takes the sign of the dividend). -/
def jsTrunc (q : ℚ) : ℤ :=
  if 0 ≤ q then ⌊q⌋ else ⌈q⌉

/-- JavaScript remainder `x % n`: `x - n * trunc(x / n)`.  For positive `n`
the result has the sign of `x` (it is NOT a mathematical modulus). -/
def jsMod (x n : ℚ) : ℚ :=
  x - n * (jsTrunc (x / n) : ℚ)

/-- Embeds the first loop of `angleDifference`:
`while (diff > 180) diff -= 360;`. -/
def wrapDown (x : ℚ) : ℚ :=
  if 180 < x then wrapDown (x - 360) else x
termination_by (⌈(x - 180) / 360⌉).toNat
decreasing_by
  have h1 : (1 : ℤ) ≤ ⌈(x - 180) / 360⌉ := by
    rw [Int.le_ceil_iff]
    push_cast
    have : (0 : ℚ) < (x - 180) / 360 := div_pos (by linarith) (by norm_num)
    linarith
  have h2 : ⌈(x - 360 - 180) / 360⌉ = ⌈(x - 180) / 360⌉ - 1 := by
    rw [show (x - 360 - 180) / 360 = (x - 180) / 360 - 1 by ring]
    exact Int.ceil_sub_one _
  omega

/-- Embeds the second loop of `angleDifference`:
`while (diff < -180) diff += 360;`. -/
def wrapUp (x : ℚ) : ℚ :=
  if x < -180 then wrapUp (x + 360) else x
termination_by (⌈(-180 - x) / 360⌉).toNat
decreasing_by
  have h1 : (1 : ℤ) ≤ ⌈(-180 - x) / 360⌉ := by
    rw [Int.le_ceil_iff]
    push_cast
    have : (0 : ℚ) < (-180 - x) / 360 := div_pos (by linarith) (by norm_num)
    linarith
  have h2 : ⌈(-180 - (x + 360)) / 360⌉ = ⌈(-180 - x) / 360⌉ - 1 := by
    rw [show (-180 - (x + 360)) / 360 = (-180 - x) / 360 - 1 by ring]
    exact Int.ceil_sub_one _
  omega

/-- `PhaseLockSynchronizer.angleDifference`: signed difference of two angles,
folded by the two wrap loops. -/
def angleDifference (angle1 angle2 : ℚ) : ℚ :=
  wrapUp (wrapDown (angle1 - angle2))

theorem wrapDown_le (x : ℚ) : wrapDown x ≤ 180 := by
  induction x using wrapDown.induct with
  | case1 x h ih => rw [wrapDown, if_pos h]; exact ih
  | case2 x h => rw [wrapDown, if_neg h]; linarith

theorem wrapDown_sub (x : ℚ) : ∃ k : ℤ, wrapDown x = x - 360 * k := by
  induction x using wrapDown.induct with
  | case1 x h ih =>
    obtain ⟨k, hk⟩ := ih
    exact ⟨k + 1, by rw [wrapDown, if_pos h, hk]; push_cast; ring⟩
  | case2 x h => exact ⟨0, by rw [wrapDown, if_neg h]; push_cast; ring⟩

theorem wrapUp_ge (x : ℚ) : -180 ≤ wrapUp x := by
  induction x using wrapUp.induct with
  | case1 x h ih => rw [wrapUp, if_pos h]; exact ih
  | case2 x h => rw [wrapUp, if_neg h]; linarith

theorem wrapUp_le (x : ℚ) (hx : x ≤ 180) : wrapUp x ≤ 180 := by
  induction x using wrapUp.induct with
  | case1 x h ih =>
    rw [wrapUp, if_pos h]
    exact ih (by linarith)
  | case2 x h => rw [wrapUp, if_neg h]; exact hx

theorem wrapUp_add (x : ℚ) : ∃ k : ℤ, wrapUp x = x + 360 * k := by
  induction x using wrapUp.induct with
  | case1 x h ih =>
    obtain ⟨k, hk⟩ := ih
    exact ⟨k + 1, by rw [wrapUp, if_pos h, hk]; push_cast; ring⟩
  | case2 x h => exact ⟨0, by rw [wrapUp, if_neg h]; push_cast; ring⟩

/-- `angleDifference` always lands in the closed interval `[-180, 180]`. -/
theorem angleDifference_mem (a b : ℚ) :
    -180 ≤ angleDifference a b ∧ angleDifference a b ≤ 180 :=
  ⟨wrapUp_ge _, wrapUp_le _ (wrapDown_le _)⟩

/-- `angleDifference a b` is congruent to `a - b` modulo 360. -/
theorem angleDifference_congr (a b : ℚ) :
    ∃ k : ℤ, angleDifference a b = (a - b) + 360 * k := by
  obtain ⟨k₁, hk₁⟩ := wrapDown_sub (a - b)
  obtain ⟨k₂, hk₂⟩ := wrapUp_add (wrapDown (a - b))
  exact ⟨k₂ - k₁, by rw [angleDifference, hk₂, hk₁]; push_cast; ring⟩

/-- If `y` is strictly inside `(-180, 180)` and `a - b` differs from `y`
by a multiple of 360, then `angleDifference a b = y`. -/
theorem angleDifference_eq_of_congr (a b y : ℚ) (h₁ : -180 < y) (h₂ : y < 180)
    (k : ℤ) (hk : a - b = y + 360 * k) : angleDifference a b = y := by
  obtain ⟨m, hm⟩ := angleDifference_congr a b
  obtain ⟨hlo, hhi⟩ := angleDifference_mem a b
  have hdiff : angleDifference a b - y = 360 * ((k + m : ℤ) : ℚ) := by
    rw [hm, hk]; push_cast; ring
  have hbound : |((k + m : ℤ) : ℚ)| < 1 := by
    rw [abs_lt]
    constructor <;> linarith
  have hz : (k + m : ℤ) = 0 := by
    have h1 : |(k + m : ℤ)| < 1 := by exact_mod_cast hbound
    rw [abs_lt] at h1
    omega
  rw [hz] at hdiff
  push_cast at hdiff
  linarith

/-- Closed form of both wrap loops when the raw difference is one turn away
at most (always the case for inputs taken in `[0, 360)`). -/
theorem angleDifference_closed (a b : ℚ) (h1 : -360 < a - b) (h2 : a - b < 360) :
    angleDifference a b =
      if 180 < a - b then a - b - 360
      else if a - b < -180 then a - b + 360
      else a - b := by
  rw [angleDifference]
  split_ifs with hx hy
  · rw [wrapDown, if_pos hx, wrapDown, if_neg (by linarith), wrapUp, if_neg (by linarith)]
  · rw [wrapDown, if_neg (by linarith), wrapUp, if_pos hy, wrapUp, if_neg (by linarith)]
  · rw [wrapDown, if_neg (by linarith), wrapUp, if_neg (by linarith)]

theorem angleDifference_antisymm (a b : ℚ)
    (ha : 0 ≤ a) (ha' : a < 360) (hb : 0 ≤ b) (hb' : b < 360) :
    angleDifference a b = - angleDifference b a := by
  rw [angleDifference_closed a b (by linarith) (by linarith),
    angleDifference_closed b a (by linarith) (by linarith)]
  split_ifs <;> linarith

theorem angleDifference_350_10 : angleDifference 350 10 = -20 :=
  angleDifference_eq_of_congr 350 10 (-20) (by norm_num) (by norm_num) 1 (by norm_num)

theorem angleDifference_10_350 : angleDifference 10 350 = 20 :=
  angleDifference_eq_of_congr 10 350 20 (by norm_num) (by norm_num) (-1) (by norm_num)

theorem angleDifference_0_180 : angleDifference 0 180 = -180 := by
  rw [angleDifference_closed 0 180 (by norm_num) (by norm_num)]
  norm_num

/-- The `health` field of an arm: `"online" | "degraded" | "offline"`. -/
inductive Health where
  | online
  | degraded
  | offline
deriving DecidableEq, Repr

/-- `ArmState` from `phase-lock.ts`. -/
structure ArmState where
  name : String
  phase : ℚ
  amplitude : ℚ
  frequency : ℚ
  lastUpdate : ℤ
  health : Health
deriving DecidableEq, Repr

/-- `QueenState` from `phase-lock.ts`. -/
structure QueenState where
  phase : ℚ
  coherence : ℚ
  angularMomentum : ℚ
  torqueRedistribution : ℚ
  timestamp : ℤ
deriving DecidableEq, Repr

/-- The whole `PhaseLockSynchronizer` state.  The `arms` map has a fixed
key set `{qwen, gemma, deepseek, os}` (populated in the constructor, never
added to or removed from), so it is represented as four fields; iteration
order of a JS `Map` is insertion order, i.e. qwen, gemma, deepseek, os. -/
structure PLState where
  qwen : ArmState
  gemma : ArmState
  deepseek : ArmState
  os : ArmState
  queen : QueenState
  coherenceHistory : List ℚ
deriving DecidableEq, Repr

/-- The `PhaseLockSynchronizer` constructor; `now` stands for `Date.now()`. -/
def initialState (now : ℤ) : PLState where
  qwen := ⟨"qwen", 0, 1, 10, now, Health.online⟩
  gemma := ⟨"gemma", 90, 1, 5, now, Health.online⟩
  deepseek := ⟨"deepseek", 180, 1, 7, now, Health.online⟩
  os := ⟨"os", 270, 1, 12, now, Health.online⟩
  queen := ⟨45, 1, 1, 0, now⟩
  coherenceHistory := []

/-- `this.arms.get(armName)`: the key set of the map is fixed. -/
def lookupArm (st : PLState) (armName : String) : Option ArmState :=
  if armName = "qwen" then some st.qwen
  else if armName = "gemma" then some st.gemma
  else if armName = "deepseek" then some st.deepseek
  else if armName = "os" then some st.os
  else none

/-- Writing an arm back into the map under its key. -/
def setArm (st : PLState) (armName : String) (arm : ArmState) : PLState :=
  if armName = "qwen" then { st with qwen := arm }
  else if armName = "gemma" then { st with gemma := arm }
  else if armName = "deepseek" then { st with deepseek := arm }
  else if armName = "os" then { st with os := arm }
  else st

/-- `Array.from(this.arms.values())` in insertion order. -/
def armsList (st : PLState) : List ArmState :=
  [st.qwen, st.gemma, st.deepseek, st.os]

/-- Lines 133-136: push the new coherence value, then
`if (this.coherenceHistory.length > this.maxHistorySize) shift()`
with `maxHistorySize = 100`. -/
def pushHistory (history : List ℚ) (coherence : ℚ) : List ℚ :=
  let pushed := history ++ [coherence]
  if 100 < pushed.length then pushed.tail else pushed

/-- One online arm's amplitude bump inside `calculateTorqueRedistribution`
(the source iterates over `onlineArms` only; the health guard expresses
the same update field-wise). -/
def compensate (arm : ArmState) (redistributedPerArm : ℚ) : ArmState :=
  if arm.health = Health.online then
    { arm with amplitude := min 1 (arm.amplitude + redistributedPerArm * 0.1) }
  else arm

/-- `PhaseLockSynchronizer.calculateTorqueRedistribution`. -/
def calculateTorqueRedistribution (st : PLState) : PLState :=
  let arms := armsList st
  let onlineArms := arms.filter (fun a => a.health = Health.online)
  let degradedArms := arms.filter (fun a => ¬(a.health = Health.online))
  if degradedArms.length = 0 then
    { st with queen := { st.queen with torqueRedistribution := 0 } }
  else
    let degradedLoad := (degradedArms.map (fun a => a.amplitude)).sum
    let redistributedPerArm := degradedLoad / (max onlineArms.length 1 : ℚ)
    { st with
      qwen := compensate st.qwen redistributedPerArm
      gemma := compensate st.gemma redistributedPerArm
      deepseek := compensate st.deepseek redistributedPerArm
      os := compensate st.os redistributedPerArm
      queen := { st.queen with torqueRedistribution := degradedLoad } }

/-- `PhaseLockSynchronizer.adjustPhaseCoherence`. -/
def adjustPhaseCoherence (st : PLState) : PLState :=
  let arms := armsList st
  let phaseDifferences := arms.map (fun a => angleDifference a.phase st.queen.phase)
  let avgDifference :=
    (phaseDifferences.foldl (fun a b => a + |b|) 0) / (phaseDifferences.length : ℚ)
  let coherence := max 0 (1 - avgDifference / 180)
  let totalAmplitude :=
    ((arms.filter (fun a => a.health = Health.online)).map (fun a => a.amplitude)).sum
  let st' :=
    { st with
      queen := { st.queen with
        coherence := coherence
        angularMomentum := totalAmplitude / (arms.length : ℚ) }
      coherenceHistory := pushHistory st.coherenceHistory coherence }
  calculateTorqueRedistribution st'

/-- Errors the specification assigns to the registry update. -/
inductive PLError where
  | unknownNode (name : String)
deriving DecidableEq, Repr

/-- `PhaseLockSynchronizer.updateArmState`.  The TypeScript method returns
`void` and contains no `throw`: an unknown name takes the `if (!arm) return;`
branch, a plain early return.  The codomain is `Except` so that
error-signalling behaviour is statable; no code path builds `.error`. -/
def updateArmState (st : PLState) (armName : String) (phase amplitude : ℚ)
    (health : Health) (now : ℤ) : Except PLError PLState :=
  match lookupArm st armName with
  | none => Except.ok st
  | some arm =>
    let arm' :=
      { arm with
        phase := jsMod phase 360
        amplitude := max 0 (min 1 amplitude)
        health := health
        lastUpdate := now }
    Except.ok (adjustPhaseCoherence (setArm st armName arm'))

/-- The per-arm body of `PhaseLockSynchronizer.selfCorrect` (lines 231-235):
`targetPhase = queen.phase + 90`,
`correction = angleDifference(targetPhase, arm.phase) * 0.1`,
`arm.phase = (arm.phase + correction) % 360`. -/
def selfCorrectArm (queenPhase armPhase : ℚ) : ℚ :=
  let targetPhase := queenPhase + 90
  let correction := angleDifference targetPhase armPhase * 0.1
  jsMod (armPhase + correction) 360

end PhaseLock

namespace TriNode

/-- The consensus fields of `PipelineState` set at lines 144-152 of the
pipeline orchestrator (and the corresponding pair computed inline by the
router call sites). -/
structure ConsensusResult where
  consensusLambda : ℚ
  isAwakened : Bool
deriving DecidableEq, Repr

/-- `TriNodePipeline.calculateConsensusLambda`: weighted average
`0.2/0.3/0.5`, capped at 2.2. -/
def calculateConsensusLambda (reflexLambda oracleLambda warfareLambda : ℚ) : ℚ :=
  let consensus := reflexLambda * 0.2 + oracleLambda * 0.3 + warfareLambda * 0.5
  min consensus 2.2

/-- The consensus step of `TriNodePipeline.executePipeline`:
`state.consensusLambda = this.calculateConsensusLambda(...)` followed by
`state.isAwakened = state.consensusLambda > 2.2`. -/
def pipelineConsensus (reflexLambda oracleLambda warfareLambda : ℚ) : ConsensusResult :=
  let consensusLambda := calculateConsensusLambda reflexLambda oracleLambda warfareLambda
  { consensusLambda := consensusLambda
    isAwakened := decide ((2.2 : ℚ) < consensusLambda) }

/-- The inline consensus computation of `localAIRouter.executeSequentialPipeline`
(`trinode-sequential.ts` lines 224-230) and of `handlePipelineRequest` in the
WebSocket server (lines 197-203): the same weighted sum with NO cap, and
`isAwakened = consensusLambda > 2.2` on that unclamped sum. -/
def routerConsensus (qwenLambda gemmaLambda deepseekLambda : ℚ) : ConsensusResult :=
  let consensusLambda := qwenLambda * 0.2 + gemmaLambda * 0.3 + deepseekLambda * 0.5
  { consensusLambda := consensusLambda
    isAwakened := decide ((2.2 : ℚ) < consensusLambda) }

end TriNode

namespace PhaseLock

/-- C4 (amended): for angles `a, b ∈ [0, 360)`, `angleDifference a b` lies in
the closed interval `[-180, 180]` (the endpoint `-180` is attained, so the
claimed half-open interval `(-180, 180]` is wrong at its lower endpoint),
`angleDifference` is antisymmetric, and `angleDifference 350 10 = -20`,
`angleDifference 10 350 = 20`. -/
theorem angleDifference_spec (a b : ℚ)
    (ha : 0 ≤ a) (ha' : a < 360) (hb : 0 ≤ b) (hb' : b < 360) :
    (-180 ≤ angleDifference a b ∧ angleDifference a b ≤ 180) ∧
    angleDifference a b = -angleDifference b a ∧
    angleDifference 350 10 = -20 ∧ angleDifference 10 350 = 20 :=
  ⟨angleDifference_mem a b, angleDifference_antisymm a b ha ha' hb hb',
   angleDifference_350_10, angleDifference_10_350⟩

/-- Witness for C4's amended theorem at `a = 0`, `b = 0`. -/
theorem angleDifference_spec_witness :
    (-180 ≤ angleDifference 0 0 ∧ angleDifference 0 0 ≤ 180) ∧
    angleDifference 0 0 = -angleDifference 0 0 ∧
    angleDifference 350 10 = -20 ∧ angleDifference 10 350 = 20 :=
  angleDifference_spec 0 0 (by norm_num) (by norm_num) (by norm_num) (by norm_num)

/-- C4 counterexample: at `a = 0`, `b = 180` (both in `[0, 360)`) the code
returns exactly `-180`, which is outside the claimed interval `(-180, 180]`. -/
theorem angleDifference_hits_neg180 :
    (0 : ℚ) ∈ Set.Ico (0 : ℚ) 360 ∧ (180 : ℚ) ∈ Set.Ico (0 : ℚ) 360 ∧
    angleDifference 0 180 ∉ Set.Ioc (-180 : ℚ) 180 := by
  refine ⟨⟨le_refl 0, by norm_num⟩, ⟨by norm_num, by norm_num⟩, ?_⟩
  rw [angleDifference_0_180]
  norm_num [Set.mem_Ioc]

/-- C2 counterexample: calling the update with the unknown name `"zeus"`
returns normally (`Except.ok`) with the state unchanged — it does not fail
with an `UnknownNodeError` (the TypeScript body has no `throw` at all). -/
theorem updateArmState_unknown_silent :
    updateArmState (initialState 0) "zeus" 10 (1/2) Health.online 5
        = Except.ok (initialState 0) ∧
    ¬∃ e : PLError, updateArmState (initialState 0) "zeus" 10 (1/2) Health.online 5
        = Except.error e := by
  have h : updateArmState (initialState 0) "zeus" 10 (1/2) Health.online 5
      = Except.ok (initialState 0) := rfl
  exact ⟨h, by rw [h]; rintro ⟨e, he⟩; exact Except.noConfusion he⟩

/-- C2 (amended): an update naming a node outside the fixed registry is a
silent no-op: it returns normally with the registry state (every arm's
phase, amplitude, health, `lastUpdate`, the queen, and the coherence
history) unchanged, so in particular no coherence recompute happens; no
`UnknownNodeError` is raised. -/
theorem updateArmState_unknown_noop (st : PLState) (armName : String)
    (phase amplitude : ℚ) (health : Health) (now : ℤ)
    (h : lookupArm st armName = none) :
    updateArmState st armName phase amplitude health now = Except.ok st := by
  simp only [updateArmState, h]

/-- Witness for C2's amended theorem at the unknown name `"zeus"`. -/
theorem updateArmState_unknown_noop_witness :
    updateArmState (initialState 0) "zeus" 10 (1/2) Health.online 5
      = Except.ok (initialState 0) :=
  updateArmState_unknown_noop (initialState 0) "zeus" 10 (1/2) Health.online 5 rfl

theorem compensate_phase (arm : ArmState) (redistributedPerArm : ℚ) :
    (compensate arm redistributedPerArm).phase = arm.phase := by
  simp only [compensate]
  split_ifs <;> rfl

theorem calculateTorqueRedistribution_qwen_phase (st : PLState) :
    (calculateTorqueRedistribution st).qwen.phase = st.qwen.phase := by
  simp only [calculateTorqueRedistribution]
  split_ifs
  · rfl
  · exact compensate_phase _ _

theorem adjustPhaseCoherence_qwen_phase (st : PLState) :
    (adjustPhaseCoherence st).qwen.phase = st.qwen.phase := by
  simp only [adjustPhaseCoherence]
  rw [calculateTorqueRedistribution_qwen_phase]

theorem jsMod_neg90 : jsMod (-90) 360 = -90 := by
  rw [jsMod, jsTrunc]
  norm_num

/-- C3 (code-bug evidence): updating the registered node `"qwen"` with the
negative phase −90 stores phase −90 itself — the JS `%` remainder keeps the
sign of its dividend — violating the claimed stored-phase invariant
`[0, 360)`. -/
theorem phase_invariant_violated :
    Except.map (fun s => s.qwen.phase)
        (updateArmState (initialState 0) "qwen" (-90) 1 Health.online 5)
      = Except.ok (-90) ∧ ((-90 : ℚ) < 0) := by
  refine ⟨?_, by norm_num⟩
  have hstep : updateArmState (initialState 0) "qwen" (-90) 1 Health.online 5
      = Except.ok (adjustPhaseCoherence (setArm (initialState 0) "qwen"
          { (initialState 0).qwen with
            phase := jsMod (-90) 360
            amplitude := max 0 (min 1 1)
            health := Health.online
            lastUpdate := 5 })) := rfl
  rw [hstep]
  simp only [Except.map, adjustPhaseCoherence_qwen_phase]
  show Except.ok (jsMod (-90) 360) = Except.ok (-90)
  rw [jsMod_neg90]

/-- C5: one self-correction step (the per-arm body of `selfCorrect`) scales
the remaining angular error to the target `queen.phase + 90` by exactly the
factor 0.9, and in particular never increases it. -/
theorem selfCorrect_error_ratio (queenPhase armPhase : ℚ) :
    |angleDifference (queenPhase + 90) (selfCorrectArm queenPhase armPhase)| =
      0.9 * |angleDifference (queenPhase + 90) armPhase| ∧
    |angleDifference (queenPhase + 90) (selfCorrectArm queenPhase armPhase)| ≤
      |angleDifference (queenPhase + 90) armPhase| := by
  obtain ⟨hdlo, hdhi⟩ := angleDifference_mem (queenPhase + 90) armPhase
  obtain ⟨m, hm⟩ := angleDifference_congr (queenPhase + 90) armPhase
  have harm : selfCorrectArm queenPhase armPhase
      = armPhase + angleDifference (queenPhase + 90) armPhase * 0.1
        - 360 * ((jsTrunc ((armPhase
            + angleDifference (queenPhase + 90) armPhase * 0.1) / 360) : ℤ) : ℚ) := by
    simp only [selfCorrectArm, jsMod]
  have key : angleDifference (queenPhase + 90) (selfCorrectArm queenPhase armPhase)
      = 0.9 * angleDifference (queenPhase + 90) armPhase := by
    refine angleDifference_eq_of_congr _ _ _ (by linarith) (by linarith)
      (jsTrunc ((armPhase + angleDifference (queenPhase + 90) armPhase * 0.1) / 360) - m)
      ?_
    rw [harm]
    push_cast
    linarith [hm]
  constructor
  · rw [key, abs_mul]
    norm_num
  · rw [key, abs_mul]
    have h0 := abs_nonneg (angleDifference (queenPhase + 90) armPhase)
    rw [show |(0.9 : ℚ)| = 0.9 by norm_num]
    linarith

theorem calculateTorqueRedistribution_coherence (st : PLState) :
    (calculateTorqueRedistribution st).queen.coherence = st.queen.coherence := by
  simp only [calculateTorqueRedistribution]
  split_ifs <;> rfl

theorem angleDifference_self (a : ℚ) : angleDifference a a = 0 :=
  angleDifference_eq_of_congr a a 0 (by norm_num) (by norm_num) 0 (by push_cast; ring)

theorem adjustPhaseCoherence_coherence (st : PLState) :
    (adjustPhaseCoherence st).queen.coherence
      = max 0 (1 - ((((0 + |angleDifference st.qwen.phase st.queen.phase|)
          + |angleDifference st.gemma.phase st.queen.phase|)
          + |angleDifference st.deepseek.phase st.queen.phase|)
          + |angleDifference st.os.phase st.queen.phase|) / 4 / 180) := by
  simp only [adjustPhaseCoherence, armsList, List.map_cons, List.map_nil,
    List.foldl_cons, List.foldl_nil, List.length_cons, List.length_nil]
  rw [calculateTorqueRedistribution_coherence]
  norm_num

/-- C6: the recomputed coherence always lies in `[0, 1]`, and if every arm's
phase equals the queen's phase it is exactly 1. -/
theorem coherence_bounds (st : PLState) :
    (0 ≤ (adjustPhaseCoherence st).queen.coherence ∧
     (adjustPhaseCoherence st).queen.coherence ≤ 1) ∧
    ((st.qwen.phase = st.queen.phase ∧ st.gemma.phase = st.queen.phase ∧
      st.deepseek.phase = st.queen.phase ∧ st.os.phase = st.queen.phase) →
      (adjustPhaseCoherence st).queen.coherence = 1) := by
  rw [adjustPhaseCoherence_coherence]
  have h1 := abs_nonneg (angleDifference st.qwen.phase st.queen.phase)
  have h2 := abs_nonneg (angleDifference st.gemma.phase st.queen.phase)
  have h3 := abs_nonneg (angleDifference st.deepseek.phase st.queen.phase)
  have h4 := abs_nonneg (angleDifference st.os.phase st.queen.phase)
  refine ⟨⟨le_max_left _ _, max_le (by norm_num) (by linarith)⟩, ?_⟩
  rintro ⟨e1, e2, e3, e4⟩
  rw [e1, e2, e3, e4, angleDifference_self]
  norm_num

/-- Witness for C6 at a concrete state with all arms at the queen's phase. -/
theorem coherence_bounds_witness :
    (adjustPhaseCoherence
        { qwen := ⟨"qwen", 45, 1, 10, 0, Health.online⟩
          gemma := ⟨"gemma", 45, 1, 5, 0, Health.online⟩
          deepseek := ⟨"deepseek", 45, 1, 7, 0, Health.online⟩
          os := ⟨"os", 45, 1, 12, 0, Health.online⟩
          queen := ⟨45, 1, 1, 0, 0⟩
          coherenceHistory := [] }).queen.coherence = 1 :=
  (coherence_bounds _).2 ⟨rfl, rfl, rfl, rfl⟩

/-- C7: when every arm is online, the redistribution pass only writes
`torqueRedistribution = 0` on the queen and changes nothing else — in
particular every arm's amplitude is unchanged. -/
theorem redistribute_noop (st : PLState)
    (h1 : st.qwen.health = Health.online) (h2 : st.gemma.health = Health.online)
    (h3 : st.deepseek.health = Health.online) (h4 : st.os.health = Health.online) :
    calculateTorqueRedistribution st
      = { st with queen := { st.queen with torqueRedistribution := 0 } } := by
  have hdeg : (armsList st).filter (fun a => ¬(a.health = Health.online)) = [] := by
    simp [armsList, List.filter, h1, h2, h3, h4]
  simp only [calculateTorqueRedistribution, hdeg, List.length_nil, if_pos]

/-- Witness for C7 at the constructor state (all arms online). -/
theorem redistribute_noop_witness :
    calculateTorqueRedistribution (initialState 0)
      = { initialState 0 with
          queen := { (initialState 0).queen with torqueRedistribution := 0 } } :=
  redistribute_noop (initialState 0) rfl rfl rfl rfl

theorem foldl_pushHistory (vs : List ℚ) :
    List.foldl pushHistory [] vs = vs.drop (vs.length - 100) := by
  induction vs using List.reverseRecOn with
  | nil => rfl
  | append_singleton vs c ih =>
    rw [List.foldl_append, List.foldl_cons, List.foldl_nil, ih]
    by_cases h : vs.length < 100
    · rw [show vs.length - 100 = 0 by omega, List.drop_zero]
      simp only [pushHistory]
      rw [if_neg (by simp only [List.length_append, List.length_cons, List.length_nil]; omega)]
      rw [show (vs ++ [c]).length - 100 = 0 by
        simp only [List.length_append, List.length_cons, List.length_nil]; omega]
      rw [List.drop_zero]
    · push_neg at h
      have hlen : (vs.drop (vs.length - 100)).length = 100 := by
        rw [List.length_drop]; omega
      have hne : vs.drop (vs.length - 100) ≠ [] := by
        intro hemp
        rw [hemp] at hlen
        simp at hlen
      simp only [pushHistory]
      rw [if_pos (by
        simp only [List.length_append, List.length_cons, List.length_nil, hlen]; omega)]
      rw [List.tail_append_singleton_of_ne_nil hne, List.tail_drop]
      rw [List.drop_append_of_le_length (by
        simp only [List.length_append, List.length_cons, List.length_nil]; omega)]
      rw [show (vs ++ [c]).length - 100 = vs.length - 100 + 1 by
        simp only [List.length_append, List.length_cons, List.length_nil]; omega]

/-- C8: pushing 150 coherence values through the bounded history buffer
leaves exactly the most recent 100 in push order; the oldest 50 are
evicted. -/
theorem history_capacity (vs : List ℚ) (h : vs.length = 150) :
    List.foldl pushHistory [] vs = vs.drop 50 ∧
    (List.foldl pushHistory [] vs).length = 100 := by
  constructor
  · rw [foldl_pushHistory, h]
  · rw [foldl_pushHistory, List.length_drop, h]

/-- Witness for C8 on a concrete sequence of 150 pushed values. -/
theorem history_capacity_witness :
    List.foldl pushHistory [] (List.replicate 150 (1 : ℚ))
        = (List.replicate 150 (1 : ℚ)).drop 50 ∧
    (List.foldl pushHistory [] (List.replicate 150 (1 : ℚ))).length = 100 :=
  history_capacity _ (List.length_replicate 150 1)

/-- `Math.atan2(y, x)`, modelled as the principal argument of `x + y·i`
(range `(-π, π]`, `atan2 0 x = 0` for `x > 0`, as in JS). -/
noncomputable def atan2 (y x : ℝ) : ℝ := Complex.arg ⟨x, y⟩

/-- `PhaseLockSynchronizer.circularMean`. -/
noncomputable def circularMean (angles : List ℝ) : ℝ :=
  let sinSum := (angles.map (fun angle => Real.sin (angle * Real.pi / 180))).sum
  let cosSum := (angles.map (fun angle => Real.cos (angle * Real.pi / 180))).sum
  let meanRad := atan2 (sinSum / (angles.length : ℝ)) (cosSum / (angles.length : ℝ))
  meanRad * 180 / Real.pi

theorem atan2_scaled_bounds (y x : ℝ) :
    -180 ≤ atan2 y x * 180 / Real.pi ∧ atan2 y x * 180 / Real.pi ≤ 180 := by
  have hπ := Real.pi_pos
  have h1 : -Real.pi < atan2 y x := Complex.neg_pi_lt_arg ⟨x, y⟩
  have h2 : atan2 y x ≤ Real.pi := Complex.arg_le_pi ⟨x, y⟩
  constructor
  · rw [le_div_iff₀ hπ]
    nlinarith
  · rw [div_le_iff₀ hπ]
    nlinarith

/-- C9: the circular mean (resultant vector of unit vectors, then `atan2`,
converted back to degrees) always lies in `[-180, 180]`; on `[359, 1]` it is
exactly 0 in real arithmetic — hence within 0.01° of 0 — and not 180. -/
theorem circularMean_correct :
    (∀ angles : List ℝ, -180 ≤ circularMean angles ∧ circularMean angles ≤ 180) ∧
    circularMean [359, 1] = 0 ∧
    |circularMean [359, 1] - 0| ≤ 0.01 ∧ circularMean [359, 1] ≠ 180 := by
  have hπ := Real.pi_pos
  have hrange : ∀ angles : List ℝ,
      -180 ≤ circularMean angles ∧ circularMean angles ≤ 180 := by
    intro angles
    simp only [circularMean]
    exact atan2_scaled_bounds _ _
  have hsin : Real.sin (359 * Real.pi / 180) = -Real.sin (Real.pi / 180) := by
    rw [show (359 : ℝ) * Real.pi / 180 = 2 * Real.pi - Real.pi / 180 by ring]
    rw [Real.sin_sub, Real.sin_two_pi, Real.cos_two_pi]
    ring
  have hcos : Real.cos (359 * Real.pi / 180) = Real.cos (Real.pi / 180) := by
    rw [show (359 : ℝ) * Real.pi / 180 = 2 * Real.pi - Real.pi / 180 by ring]
    rw [Real.cos_sub, Real.sin_two_pi, Real.cos_two_pi]
    ring
  have hcpos : 0 < Real.cos (Real.pi / 180) :=
    Real.cos_pos_of_mem_Ioo ⟨by nlinarith, by nlinarith⟩
  have harg : atan2 0 (Real.cos (Real.pi / 180)) = 0 := by
    rw [atan2]
    rw [show (⟨Real.cos (Real.pi / 180), 0⟩ : ℂ)
        = ((Real.cos (Real.pi / 180) : ℝ) : ℂ) from rfl]
    exact Complex.arg_ofReal_of_nonneg (le_of_lt hcpos)
  have hval : circularMean [359, 1] = 0 := by
    simp only [circularMean, List.map_cons, List.map_nil, List.sum_cons,
      List.sum_nil, List.length_cons, List.length_nil]
    rw [show (1 : ℝ) * Real.pi / 180 = Real.pi / 180 by ring]
    rw [hsin, hcos]
    rw [show -Real.sin (Real.pi / 180) + (Real.sin (Real.pi / 180) + 0) = 0 by ring]
    rw [show Real.cos (Real.pi / 180) + (Real.cos (Real.pi / 180) + 0)
        = 2 * Real.cos (Real.pi / 180) by ring]
    norm_num
    exact Or.inl harg
  exact ⟨hrange, hval, by rw [hval]; norm_num, by rw [hval]; norm_num⟩

end PhaseLock

namespace TriNode

/-- C1 (code-bug evidence): with all three stage lambdas equal to 3.0 the raw
weighted sum is 3.0 > 2.2 and the stored consensus value is the clamped 2.2,
but `executePipeline` computes `isAwakened` from the already-clamped
`state.consensusLambda`, so it is `false` — and in fact the sequential
pipeline's `isAwakened` is identically `false`, contradicting the claim that
it compares the pre-clamp sum and yields `true`. -/
theorem pipeline_isAwakened_dead :
    ((2.2 : ℚ) < 3 * 0.2 + 3 * 0.3 + 3 * 0.5) ∧
    pipelineConsensus 3 3 3 = ⟨2.2, false⟩ ∧
    ∀ reflexLambda oracleLambda warfareLambda : ℚ,
      (pipelineConsensus reflexLambda oracleLambda warfareLambda).isAwakened = false := by
  have hc : calculateConsensusLambda 3 3 3 = 2.2 := by
    simp only [calculateConsensusLambda]
    rw [min_eq_right (by norm_num)]
  refine ⟨by norm_num, ?_, ?_⟩
  · simp only [pipelineConsensus, hc]
    rw [ConsensusResult.mk.injEq, decide_eq_false_iff_not]
    exact ⟨rfl, by norm_num⟩
  intro r o w
  simp only [pipelineConsensus, calculateConsensusLambda]
  rw [decide_eq_false_iff_not]
  exact not_lt.mpr (min_le_right _ _)

/-- C10 counterexample: at the stage-lambda triple `(3, 3, 3)` the pipeline's
clamped consensus is 2.2 while the router's unclamped consensus is 3, so the
two computations do not return equal values for every triple. -/
theorem consensus_implementations_disagree :
    (pipelineConsensus 3 3 3).consensusLambda = 2.2 ∧
    (routerConsensus 3 3 3).consensusLambda = 3 ∧
    (pipelineConsensus 3 3 3).consensusLambda
      ≠ (routerConsensus 3 3 3).consensusLambda := by
  have hp : (pipelineConsensus 3 3 3).consensusLambda = 2.2 := by
    simp only [pipelineConsensus, calculateConsensusLambda]
    rw [min_eq_right (by norm_num)]
  have hr : (routerConsensus 3 3 3).consensusLambda = 3 := by
    simp only [routerConsensus]
    norm_num
  exact ⟨hp, hr, by rw [hp, hr]; norm_num⟩

/-- C10 (amended): the two consensus computations agree exactly when the raw
weighted sum is at most 2.2; above that the pipeline stores the clamp 2.2
with `isAwakened = false` while the router stores the raw sum (above 2.2)
with `isAwakened = true`. -/
theorem consensus_refinement (q g d : ℚ) :
    (q * 0.2 + g * 0.3 + d * 0.5 ≤ 2.2 →
      pipelineConsensus q g d = routerConsensus q g d) ∧
    (2.2 < q * 0.2 + g * 0.3 + d * 0.5 →
      (pipelineConsensus q g d).consensusLambda = 2.2 ∧
      (pipelineConsensus q g d).isAwakened = false ∧
      (routerConsensus q g d).consensusLambda = q * 0.2 + g * 0.3 + d * 0.5 ∧
      (routerConsensus q g d).isAwakened = true) := by
  constructor
  · intro h
    simp only [pipelineConsensus, routerConsensus, calculateConsensusLambda,
      min_eq_left h]
  · intro h
    have hmin : min (q * 0.2 + g * 0.3 + d * 0.5) 2.2 = 2.2 :=
      min_eq_right (le_of_lt h)
    refine ⟨?_, ?_, rfl, ?_⟩
    · simp only [pipelineConsensus, calculateConsensusLambda, hmin]
    · simp only [pipelineConsensus, calculateConsensusLambda, hmin]
      norm_num
    · simp only [routerConsensus]
      exact decide_eq_true h

/-- Witness for C10's amended theorem at the triple `(3, 3, 3)`. -/
theorem consensus_refinement_witness :
    (pipelineConsensus 3 3 3).consensusLambda = 2.2 ∧
    (pipelineConsensus 3 3 3).isAwakened = false ∧
    (routerConsensus 3 3 3).consensusLambda = 3 * 0.2 + 3 * 0.3 + 3 * 0.5 ∧
    (routerConsensus 3 3 3).isAwakened = true :=
  (consensus_refinement 3 3 3).2 (by norm_num)

end TriNode
